import Mathlib

/-!
# Verification of the hashport-validator EVM watcher and transfer persistence

Shallow embedding of the EVM router watcher (`NewWatcher`, `beginWatching`,
`processLogs`, `handleMintLog`, `handleBurnLog`, `handleLockLog`,
`handleUnlockLog`) and of the guarded status updates of the transfer
repository (`updateStatus`, `baseUpdateStatus`, `updateSignatureStatus`,
`isValidStatus`).

External collaborators (chain client, asset registry, queue, metrics sink,
hedera SDK) are modelled as parameters: their call results are fields of an
`Env` record, so each theorem quantifies over every possible collaborator
outcome.  Go `*big.Int` amounts are embedded as `Int` (arbitrary precision,
like `big.Int`); Go `uint64` block numbers as `Nat` with explicit `% 2^64`
wrap-around where the Go code performs `uint64` arithmetic; Go
`(pointer, error)` multi-returns as `Option α × Bool` where the `Bool` is
the presence of an error, so that a dereference of the pointer component is
only possible where the embedded code actually performs it.
-/

namespace Hashport

/-- `constants.HederaNetworkId`: the chain id of the Hedera settlement
network (value `0` in the repository's constants package). -/
def HederaNetworkId : Int := 0

/-- Queue topics used by the watcher (`constants` package).  In Go these are
distinct string constants; embedded as a closed enumeration. -/
inductive Topic where
  | HederaFeeTransfer
  | HederaMintHtsTransfer
  | TopicMessageSubmission
  | ReadOnlyHederaTransfer
  | ReadOnlyHederaMintHtsTransfer
  | ReadOnlyTransferSave
deriving DecidableEq, Repr

/-- The canonical cross-chain `transfer.Transfer` record built by the
handlers.  `amount` holds the `big.Int` value whose decimal string the Go
code stores; `timestamp` is the Go string field, `""` when unset. -/
structure Transfer where
  transactionId : String
  sourceChainId : Int
  targetChainId : Int
  nativeChainId : Int
  sourceAsset : String
  targetAsset : String
  nativeAsset : String
  receiver : String
  amount : Int
  timestamp : String := ""
deriving DecidableEq, Repr

/-- An asset-registry record: the native asset's home chain, its identifier
and its configured minimum transfer amount. -/
structure NativeAsset where
  chainId : Int
  asset : String
  minAmount : Int
deriving DecidableEq, Repr

/-- Metric side effects performed by the handlers (`metrics` helpers). -/
inductive MetricOp where
  | createMajorityReached (source target : Int) (token txId : String)
  | createFeeTransferred (source target : Int) (token txId : String)
  | createUserGetHisTokens (source target : Int) (token txId : String)
  | setUserGetHisTokens (source target : Int) (token txId : String)
deriving DecidableEq, Repr

/-- The observable side effects of handling one log: metric calls, queue
pushes and the fire-and-forget member reload. -/
structure Effects where
  metrics : List MetricOp := []
  pushes : List (Topic × Transfer) := []
  reloadMembers : Bool := false
deriving DecidableEq, Repr

/-- A Go runtime panic (nil-pointer dereference). -/
inductive Panic where
  | nilDeref
deriving DecidableEq, Repr

/-- The embedded fields of `types.Log` that the handlers read through
`eventLog.Raw`. -/
structure RawTxLog where
  txHash : String
  index : Nat
  blockNumber : Nat
  removed : Bool
deriving DecidableEq, Repr

/-- Decoded `router.RouterLock` event. -/
structure RouterLock where
  raw : RawTxLog
  targetChain : Int
  token : String
  receiver : List Nat
  amount : Int
  serviceFee : Int
deriving DecidableEq, Repr

/-- Decoded `router.RouterBurn` event. -/
structure RouterBurn where
  raw : RawTxLog
  targetChain : Int
  token : String
  receiver : List Nat
  amount : Int
deriving DecidableEq, Repr

/-- Decoded `router.RouterMint` event. -/
structure RouterMint where
  raw : RawTxLog
  sourceChain : Int
  token : String
  transactionId : String
deriving DecidableEq, Repr

/-- Decoded `router.RouterUnlock` event. -/
structure RouterUnlock where
  raw : RawTxLog
  sourceChain : Int
  token : String
  transactionId : String
deriving DecidableEq, Repr

/-- Event signatures (the ABI topic hashes of `FilterConfig`); distinct
hashes embedded as a closed enumeration, `other` standing for any hash that
matches none of the five subscribed events. -/
inductive EventSig where
  | mint
  | burn
  | lock
  | unlock
  | memberUpdated
  | other
deriving DecidableEq, Repr

/-- A raw, undecoded log as returned by `RetryFilterLogs`. -/
structure RawLog where
  topics : List EventSig
deriving DecidableEq, Repr

/-- The `c.Assets` mappings consumed by the handlers. -/
structure Assets where
  wrappedToNative : String → Int → Option NativeAsset
  nativeToWrapped : String → Int → Int → String
  fungibleNativeAsset : Int → String → NativeAsset
  getOppositeAsset : Int → Int → String → String

/-- Collaborator call results for one handling pass: the chain-id lookup is
Go's `(*big.Int, error)` pair, embedded as `(Option Int) × Bool` (pointer,
error-present); `removeDecimals` and `accountIDFromBytes` return `none` on
error; the parse functions return Go's `(pointer, error)` pairs. -/
structure Env where
  chainID : Option Int × Bool
  removeDecimals : Int → String → Option Int
  accountIDFromBytes : List Nat → Option String
  bytesToAddress : List Nat → String
  blockTimestamp : Nat → Nat
  monitoringEnabled : Bool
  parseLock : RawLog → Option RouterLock × Bool
  parseBurn : RawLog → Option RouterBurn × Bool
  parseMint : RawLog → Option RouterMint × Bool
  parseUnlock : RawLog → Option RouterUnlock × Bool

/-- The watcher fields the handlers read. -/
structure Watcher where
  mappings : Assets
  targetBlock : Nat
  validator : Bool

/-- `fmt.Sprintf("%s-%d", eventLog.Raw.TxHash, eventLog.Raw.Index)`. -/
def txIdOf (raw : RawTxLog) : String :=
  raw.txHash ++ "-" ++ Nat.repr raw.index

/-- `strconv.FormatUint(blockTimestamp, 10)`. -/
def formatUint (n : Nat) : String :=
  Nat.repr n

/-- Embedding of `handleBurnLog`.  Mirrors the source order: removed check,
empty-receiver check, chain-id lookup (error checked before use), native
asset resolution, metrics (gated by the monitoring flag), wrapped-to-wrapped
rejection, receiver decoding, decimal adjustment for the Hedera target,
zero-amount and minimum-amount checks, build and route. -/
def handleBurnLog (ew : Watcher) (env : Env) (ev : RouterBurn) :
    Except Panic Effects :=
  if ev.raw.removed then .ok {} else
  if ev.receiver = [] then .ok {} else
  match env.chainID with
  | (chainPtr, chainErr) =>
    if chainErr then .ok {} else
    match chainPtr with
    | none => .error .nilDeref
    | some chain =>
      match ew.mappings.wrappedToNative ev.token chain with
      | none => .ok {}
      | some nativeAsset =>
        let sourceChainId := chain
        let targetChainId := ev.targetChain
        let transactionId := txIdOf ev.raw
        let token := ev.token
        let ms : List MetricOp :=
          if env.monitoringEnabled then
            (if targetChainId ≠ HederaNetworkId then
              [.createMajorityReached sourceChainId targetChainId token transactionId]
            else
              [.createFeeTransferred sourceChainId targetChainId token transactionId])
            ++ [.createUserGetHisTokens sourceChainId targetChainId token transactionId]
          else []
        if targetChainId ≠ nativeAsset.chainId then .ok { metrics := ms } else
        match (if targetChainId = HederaNetworkId then
                env.accountIDFromBytes ev.receiver
              else some (env.bytesToAddress ev.receiver)) with
        | none => .ok { metrics := ms }
        | some recipientAccount =>
          match (if targetChainId = HederaNetworkId then
                  env.removeDecimals ev.amount token
                else some ev.amount) with
          | none => .ok { metrics := ms }
          | some properAmount =>
            if properAmount = 0 then .ok { metrics := ms } else
            if properAmount < nativeAsset.minAmount then .ok { metrics := ms } else
            let burnEvent : Transfer :=
              { transactionId := transactionId
                sourceChainId := sourceChainId
                targetChainId := targetChainId
                nativeChainId := nativeAsset.chainId
                sourceAsset := token
                targetAsset := nativeAsset.asset
                nativeAsset := nativeAsset.asset
                receiver := recipientAccount
                amount := properAmount }
            if ew.validator ∧ ev.raw.blockNumber ≥ ew.targetBlock then
              if burnEvent.targetChainId = HederaNetworkId then
                .ok { metrics := ms, pushes := [(.HederaFeeTransfer, burnEvent)] }
              else
                .ok { metrics := ms, pushes := [(.TopicMessageSubmission, burnEvent)] }
            else
              let blockTimestamp := env.blockTimestamp ev.raw.blockNumber
              let withTs := { burnEvent with timestamp := formatUint blockTimestamp }
              if withTs.targetChainId = HederaNetworkId then
                .ok { metrics := ms, pushes := [(.ReadOnlyHederaTransfer, withTs)] }
              else
                .ok { metrics := ms, pushes := [(.ReadOnlyTransferSave, withTs)] }

/-- Embedding of `handleLockLog`.  Mirrors the source order, including that
`sourceChainId := chain.Int64()` is evaluated before the chain-id error is
checked (a nil chain pointer is dereferenced there and panics), that the
minimum-amount check compares the original event amount (before the service
fee is subtracted), and that after the fee subtraction and the decimal
adjustment only an exact-zero check is performed. -/
def handleLockLog (ew : Watcher) (env : Env) (ev : RouterLock) :
    Except Panic Effects :=
  let transactionId := txIdOf ev.raw
  let targetChainId := ev.targetChain
  let token := ev.token
  if ev.raw.removed then .ok {} else
  if ev.receiver = [] then .ok {} else
  match env.chainID with
  | (chainPtr, chainErr) =>
    match chainPtr with
    | none => .error .nilDeref
    | some chain =>
      let sourceChainId := chain
      if chainErr then .ok {} else
      let ms : List MetricOp :=
        (if targetChainId ≠ HederaNetworkId then
          [.createMajorityReached sourceChainId targetChainId token transactionId]
        else [])
        ++ [.createUserGetHisTokens sourceChainId targetChainId token transactionId]
      match (if targetChainId = HederaNetworkId then
              env.accountIDFromBytes ev.receiver
            else some (env.bytesToAddress ev.receiver)) with
      | none => .ok { metrics := ms }
      | some recipientAccount =>
        let wrappedAsset := ew.mappings.nativeToWrapped token sourceChainId targetChainId
        if wrappedAsset = "" then .ok { metrics := ms } else
        let nativeAsset := ew.mappings.fungibleNativeAsset sourceChainId token
        if ev.amount < nativeAsset.minAmount then .ok { metrics := ms } else
        match (if targetChainId = HederaNetworkId then
                env.removeDecimals (ev.amount - ev.serviceFee) token
              else some (ev.amount - ev.serviceFee)) with
        | none => .ok { metrics := ms }
        | some properAmount =>
          if properAmount = 0 then .ok { metrics := ms } else
          let tr : Transfer :=
            { transactionId := transactionId
              sourceChainId := sourceChainId
              targetChainId := targetChainId
              nativeChainId := sourceChainId
              sourceAsset := token
              targetAsset := wrappedAsset
              nativeAsset := token
              receiver := recipientAccount
              amount := properAmount }
          if ew.validator ∧ ev.raw.blockNumber ≥ ew.targetBlock then
            if tr.targetChainId = HederaNetworkId then
              .ok { metrics := ms, pushes := [(.HederaMintHtsTransfer, tr)] }
            else
              .ok { metrics := ms, pushes := [(.TopicMessageSubmission, tr)] }
          else
            let blockTimestamp := env.blockTimestamp ev.raw.blockNumber
            let trTs := { tr with timestamp := formatUint blockTimestamp }
            if trTs.targetChainId = HederaNetworkId then
              .ok { metrics := ms, pushes := [(.ReadOnlyHederaMintHtsTransfer, trTs)] }
            else
              .ok { metrics := ms, pushes := [(.ReadOnlyTransferSave, trTs)] }

/-- Embedding of `handleMintLog`: removed check, chain-id lookup (error
checked first), then a single completion metric; no queue push. -/
def handleMintLog (ew : Watcher) (env : Env) (ev : RouterMint) :
    Except Panic Effects :=
  if ev.raw.removed then .ok {} else
  match env.chainID with
  | (chainPtr, chainErr) =>
    if chainErr then .ok {} else
    match chainPtr with
    | none => .error .nilDeref
    | some chain =>
      let transactionId := ev.transactionId
      let sourceChainId := ev.sourceChain
      let targetChainId := chain
      let oppositeToken := ew.mappings.getOppositeAsset sourceChainId targetChainId ev.token
      .ok { metrics := [.setUserGetHisTokens sourceChainId targetChainId oppositeToken transactionId] }

/-- Embedding of `handleUnlockLog`: same shape as `handleMintLog`. -/
def handleUnlockLog (ew : Watcher) (env : Env) (ev : RouterUnlock) :
    Except Panic Effects :=
  if ev.raw.removed then .ok {} else
  match env.chainID with
  | (chainPtr, chainErr) =>
    if chainErr then .ok {} else
    match chainPtr with
    | none => .error .nilDeref
    | some chain =>
      let transactionId := ev.transactionId
      let sourceChainId := ev.sourceChain
      let targetChainId := chain
      let oppositeToken := ew.mappings.getOppositeAsset sourceChainId targetChainId ev.token
      .ok { metrics := [.setUserGetHisTokens sourceChainId targetChainId oppositeToken transactionId] }

/-- The queue pushes of a handler outcome (empty when the handler panicked
before pushing anything). -/
def pushesOf : Except Panic Effects → List (Topic × Transfer)
  | .ok e => e.pushes
  | .error _ => []

/-- The per-log dispatch body of `processLogs`: classify by the first topic
hash and hand to the matching handler.  On a parse error the source logs
`"Could not parse ... [%s]"` formatting `x.Raw.TxHash.String()` where `x`
is the parse result: when that result is the nil pointer, the formatting
itself dereferences nil and panics; when the parse succeeds but an error is
reported, the log is skipped.  A nil parse result without an error would be
dereferenced inside the handler's first `eventLog.Raw` access. -/
def dispatchLog (ew : Watcher) (env : Env) (log : RawLog) :
    Except Panic Effects :=
  match log.topics with
  | [] => .ok {}
  | t :: _ =>
    if t = EventSig.lock then
      match env.parseLock log with
      | (some _, true) => .ok {}
      | (none, true) => .error .nilDeref
      | (some lock, false) => handleLockLog ew env lock
      | (none, false) => .error .nilDeref
    else if t = EventSig.unlock then
      match env.parseUnlock log with
      | (some _, true) => .ok {}
      | (none, true) => .error .nilDeref
      | (some unlock, false) => handleUnlockLog ew env unlock
      | (none, false) => .error .nilDeref
    else if t = EventSig.mint then
      match env.parseMint log with
      | (some _, true) => .ok {}
      | (none, true) => .error .nilDeref
      | (some mint, false) => handleMintLog ew env mint
      | (none, false) => .error .nilDeref
    else if t = EventSig.burn then
      match env.parseBurn log with
      | (some _, true) => .ok {}
      | (none, true) => .error .nilDeref
      | (some burn, false) => handleBurnLog ew env burn
      | (none, false) => .error .nilDeref
    else if t = EventSig.memberUpdated then
      .ok { reloadMembers := true }
    else
      .ok {}

/-- The `for _, log := range logs` loop of `processLogs`; a panic aborts the
whole process (nothing after it runs). -/
def dispatchAll (ew : Watcher) (env : Env) : List RawLog → Except Panic (List Effects)
  | [] => .ok []
  | l :: ls =>
    match dispatchLog ew env l with
    | .error p => .error p
    | .ok e =>
      match dispatchAll ew env ls with
      | .error p => .error p
      | .ok es => .ok (e :: es)

/-- How one `processLogs` call can fail. -/
inductive ProcErr where
  | fetchFailed
  | updateFailed
  | panicked (p : Panic)
deriving DecidableEq, Repr

/-- Embedding of `processLogs`: the log fetch over the inclusive range
`[fromBlock, endBlock]` is the collaborator result `fetchRes` (`none` when
`RetryFilterLogs` errors); each fetched log is dispatched; afterwards the
watermark is updated to `endBlock + 1` (`blockToBeUpdated`), the update's
own success being the collaborator result `updateOk`.  Returns the store's
watermark for the watcher's identity after the call, together with the
call's outcome.  `repository.Get` on the resulting store returns exactly
the returned watermark, so it is the next iteration's `fromBlock`. -/
def processLogs (ew : Watcher) (env : Env) (fromBlock endBlock : Int)
    (fetchRes : Option (List RawLog)) (updateOk : Bool) (watermark : Int) :
    Int × Except ProcErr (List Effects) :=
  match fetchRes with
  | none => (watermark, .error .fetchFailed)
  | some logs =>
    match dispatchAll ew env logs with
    | .error p => (watermark, .error (.panicked p))
    | .ok effs =>
      let blockToBeUpdated := endBlock + 1
      if updateOk then (blockToBeUpdated, .ok effs)
      else (watermark, .error .updateFailed)

/-! ## Watcher construction (`NewWatcher`) and the poll range arithmetic -/

/-- `2 ^ 64`, the modulus of Go's `uint64`. -/
def UINT64MOD : Nat := 2 ^ 64

/-- Go `uint64` subtraction `a - b`: wrap-around modulo `2 ^ 64`. -/
def u64sub (a b : Nat) : Nat :=
  (a % UINT64MOD + (UINT64MOD - b % UINT64MOD)) % UINT64MOD

/-- `helper.Max` from `app/helper/big-numbers`: maximum of two `uint64`s. -/
def helperMax (x y : Nat) : Nat :=
  if x > y then x else y

/-- The initial target block computed by `NewWatcher`:
`helper.Max(0, currentBlock - evmClient.BlockConfirmations())`, both
operands `uint64`. -/
def initialTargetBlock (currentBlock confirmations : Nat) : Nat :=
  helperMax 0 (u64sub currentBlock confirmations)

/-- Go `int64(x)` applied to a `uint64` value `x`: two's-complement
reinterpretation. -/
def int64OfUInt64 (x : Nat) : Int :=
  if x % UINT64MOD < 2 ^ 63 then ((x % UINT64MOD : Nat) : Int)
  else ((x % UINT64MOD : Nat) : Int) - (UINT64MOD : Int)

/-- Go `uint64(x)` applied to an `int64` value `x`: two's-complement
reinterpretation. -/
def uint64OfInt64 (x : Int) : Nat :=
  (x % (UINT64MOD : Int)).toNat

/-- The per-iteration upper bound of `beginWatching`:
`toBlock := int64(currentBlock - ew.evmClient.BlockConfirmations())`,
computed in `uint64` and then cast. -/
def iterationToBlock (currentBlock confirmations : Nat) : Int :=
  int64OfUInt64 (u64sub currentBlock confirmations)

/-- The range clamp of `beginWatching`: if `toBlock - fromBlock >
maxLogsBlocks` then `toBlock = fromBlock + maxLogsBlocks`. -/
def clampToBlock (fromBlock toBlock maxLogsBlocks : Int) : Int :=
  if toBlock - fromBlock > maxLogsBlocks then fromBlock + maxLogsBlocks
  else toBlock

/-- Result of the starting-block policy of `NewWatcher`: the Progress Store
row for the watcher's identity after construction, and the watcher's
`targetBlock` field. -/
structure NewWatcherResult where
  store : Option Int
  targetBlock : Nat
deriving DecidableEq, Repr

/-- Embedding of the starting-block policy of `NewWatcher` (store
interactions of the `startBlock == 0` branch and its `else`).  `store` is
the Progress Store row for `dbIdentifier` before construction (`none` when
`repository.Get` reports `gorm.ErrRecordNotFound`).  With `startBlock == 0`
and no row, `repository.Create(dbIdentifier, int64(targetBlock))` runs;
with `startBlock == 0` and an existing row, the store is untouched;
otherwise `repository.Update(dbIdentifier, startBlock)` runs and
`targetBlock = uint64(startBlock)`. -/
def newWatcherInit (startBlock : Int) (currentBlock confirmations : Nat)
    (store : Option Int) : NewWatcherResult :=
  let targetBlock := initialTargetBlock currentBlock confirmations
  if startBlock = 0 then
    match store with
    | none => { store := some (int64OfUInt64 targetBlock), targetBlock := targetBlock }
    | some v => { store := some v, targetBlock := targetBlock }
  else
    { store := some startBlock, targetBlock := uint64OfInt64 startBlock }

/-! ## Transfer status tracks (`app/persistence/transfer/transfer.go`) -/

/-- The status constants of the persisted transfer entity
(`persistence/entity/transfer`): distinct string constants in Go, embedded
as a closed enumeration. -/
inductive TStatus where
  | Initial
  | Recovered
  | InProgress
  | Completed
  | Failed
  | InsufficientFee
  | SignatureSubmitted
  | SignatureMined
  | SignatureFailed
  | EthTxSubmitted
  | EthTxMined
  | EthTxReverted
  | EthTxMsgSubmitted
  | EthTxMsgMined
  | EthTxMsgFailed
deriving DecidableEq, Repr, Fintype

/-- Embedding of `isValidStatus`: linear scan comparing the requested status
against each allowed option. -/
def isValidStatus (status : TStatus) (possibleStatuses : List TStatus) : Bool :=
  possibleStatuses.any (fun option => status = option)

/-- The stored status-column value after a guarded update attempt, plus the
returned error. -/
structure UpdateResult where
  stored : TStatus
  err : Option String
deriving DecidableEq, Repr

/-- Embedding of `baseUpdateStatus`: reject with `"invalid status"` and
leave the column unchanged when the requested status is outside the
allow-list; otherwise write the column. -/
def baseUpdateStatus (statusColumn : String) (stored status : TStatus)
    (possibleStatuses : List TStatus) : UpdateResult :=
  if !(isValidStatus status possibleStatuses) then
    { stored := stored, err := some "invalid status" }
  else
    { stored := status, err := none }

/-- Embedding of `updateSignatureStatus`: guarded update of the
`signature_msg_status` column with allow-list
`{SignatureSubmitted, SignatureMined, SignatureFailed}`. -/
def updateSignatureStatus (stored status : TStatus) : UpdateResult :=
  baseUpdateStatus "signature_msg_status" stored status
    [.SignatureSubmitted, .SignatureMined, .SignatureFailed]

/-- Embedding of `updateEthereumTxStatus`: guarded update of the
`eth_tx_status` column. -/
def updateEthereumTxStatus (stored status : TStatus) : UpdateResult :=
  baseUpdateStatus "eth_tx_status" stored status
    [.EthTxSubmitted, .EthTxMined, .EthTxReverted]

/-! ## Concrete fixtures used by witnesses and counterexamples -/

/-- Asset registry fixture: a wrapped asset mapping home chain `1`, a
native asset on chain `3` with minimum transfer amount `50`. -/
def testAssets : Assets where
  wrappedToNative := fun _ _ => some { chainId := 1, asset := "native-token", minAmount := 50 }
  nativeToWrapped := fun _ _ _ => "wrapped-token"
  fungibleNativeAsset := fun _ t => { chainId := 3, asset := t, minAmount := 50 }
  getOppositeAsset := fun _ _ t => t

/-- Collaborator fixture: chain id `3`, identity decimal adjustment, all
lookups succeeding. -/
def testEnv : Env where
  chainID := (some 3, false)
  removeDecimals := fun a _ => some a
  accountIDFromBytes := fun _ => some "0.0.1234"
  bytesToAddress := fun _ => "0xabcdef"
  blockTimestamp := fun _ => 1700000000
  monitoringEnabled := true
  parseLock := fun _ => (none, true)
  parseBurn := fun _ => (none, true)
  parseMint := fun _ => (none, true)
  parseUnlock := fun _ => (none, true)

/-- Watcher fixture: validator mode, live cutoff at block `100`. -/
def testWatcher : Watcher where
  mappings := testAssets
  targetBlock := 100
  validator := true

/-- Raw log fixture at block `150` (at or after the cutoff), not removed. -/
def testRaw : RawTxLog where
  txHash := "0xdead"
  index := 2
  blockNumber := 150
  removed := true

/-- Same raw log, not removed. -/
def testRawLive : RawTxLog := { testRaw with removed := false }

/-- Lock event fixture: amount `1000`, service fee `100`, EVM target chain
`1` (same precision as the source, no decimal adjustment). -/
def testLockEv : RouterLock where
  raw := testRawLive
  targetChain := 1
  token := "tok"
  receiver := [1, 2]
  amount := 1000
  serviceFee := 100

/-- Lock event fixture whose service fee exceeds its amount. -/
def testLockNegEv : RouterLock := { testLockEv with serviceFee := 2000 }

/-- Burn event fixture: amount `500`, target chain `1` (the home chain of
the resolved native asset in `testAssets`). -/
def testBurnEv : RouterBurn where
  raw := testRawLive
  targetChain := 1
  token := "wtok"
  receiver := [1, 2]
  amount := 500

/-- Mint event fixture. -/
def testMintEv : RouterMint where
  raw := testRaw
  sourceChain := 1
  token := "tok"
  transactionId := "0.0.1-1-1"

/-- Unlock event fixture. -/
def testUnlockEv : RouterUnlock where
  raw := testRaw
  sourceChain := 1
  token := "tok"
  transactionId := "0.0.1-1-2"

/-- Watcher fixture whose configured minimum transfer amount is `1000`. -/
def min1000Watcher : Watcher :=
  { testWatcher with
    mappings :=
      { testAssets with
        fungibleNativeAsset := fun _ t => { chainId := 3, asset := t, minAmount := 1000 } } }

/-- A raw log carrying the Lock topic whose decode will fail. -/
def malformedLockLog : RawLog where
  topics := [EventSig.lock]

/-- Collaborator fixture where `ParseLockLog` fails, returning Go's
`(nil, err)`. -/
def envParseFail : Env := { testEnv with parseLock := fun _ => (none, true) }

/-- Collaborator fixture where the chain-id lookup fails, returning Go's
`(nil, err)`. -/
def envChainNil : Env := { testEnv with chainID := (none, true) }

/-- The transfer built by `handleBurnLog` on `testBurnEv` under `testEnv`. -/
def testBurnPush : Topic × Transfer :=
  (Topic.TopicMessageSubmission,
    { transactionId := "0xdead-2"
      sourceChainId := 3
      targetChainId := 1
      nativeChainId := 1
      sourceAsset := "wtok"
      targetAsset := "native-token"
      nativeAsset := "native-token"
      receiver := "0xabcdef"
      amount := 500 })

/-! ## Helper lemmas -/

/-- `Nat.toDigitsCore` never shrinks a nonempty accumulator to nothing. -/
theorem toDigitsCore_cons_ne_nil (b : Nat) :
    ∀ (f n : Nat) (c : Char) (ds : List Char),
      Nat.toDigitsCore b f n (c :: ds) ≠ [] := by
  intro f
  induction f with
  | zero =>
    intro n c ds h
    simp [Nat.toDigitsCore] at h
  | succ f ih =>
    intro n c ds h
    simp only [Nat.toDigitsCore] at h
    split at h
    · simp at h
    · exact ih _ _ _ h

/-- `strconv.FormatUint` (embedded as decimal `Nat.repr`) never returns the
empty string, so a Transfer whose timestamp was set carries a non-empty
timestamp field. -/
theorem formatUint_ne_empty (n : Nat) : formatUint n ≠ "" := by
  intro h
  have hdata : Nat.toDigits 10 n = [] := by
    have hd := congrArg String.data h
    simpa [formatUint, Nat.repr, List.asString] using hd
  rw [Nat.toDigits] at hdata
  simp only [Nat.toDigitsCore] at hdata
  split at hdata
  · simp at hdata
  · exact toDigitsCore_cons_ne_nil 10 _ _ _ _ hdata

/-! ## Claim theorems -/

/-- C1: For every poll iteration over an inclusive block range
`[fromBlock, toBlock]`: if log fetching and handling complete without error
(and the store accepts the write), the persisted watermark is updated to
exactly `toBlock + 1`, which `repository.Get` hands to the next iteration
as its `fromBlock` (no gap, no overlap); if the log fetch fails, the
watermark keeps its previous value and the same range is retried. -/
theorem processLogs_watermark_advance
    (ew : Watcher) (env : Env) (fromBlock endBlock watermark : Int)
    (fetchRes : Option (List RawLog)) :
    (∀ logs effs, fetchRes = some logs → dispatchAll ew env logs = .ok effs →
      processLogs ew env fromBlock endBlock fetchRes true watermark
        = (endBlock + 1, .ok effs)) ∧
    (fetchRes = none →
      processLogs ew env fromBlock endBlock fetchRes true watermark
        = (watermark, .error .fetchFailed)) := by
  constructor
  · rintro logs effs rfl hd
    simp [processLogs, hd]
  · rintro rfl
    rfl

/-- Witness for C1 at a concrete range `[5, 7]`: a successful iteration
moves the watermark from `5` to `8`; a failed fetch leaves it at `5`. -/
theorem processLogs_watermark_advance_witness :
    processLogs testWatcher testEnv 5 7 (some []) true 5 = (8, .ok []) ∧
    processLogs testWatcher testEnv 5 7 none true 5 = (5, .error .fetchFailed) :=
  ⟨(processLogs_watermark_advance testWatcher testEnv 5 7 5 (some [])).1 [] [] rfl rfl,
   (processLogs_watermark_advance testWatcher testEnv 5 7 5 none).2 rfl⟩

/-- C10: a log whose `removed` flag is true makes every handler return
before any side effect: no metric op, no queue push, no member reload. -/
theorem removed_log_has_no_side_effects (ew : Watcher) (env : Env)
    (evM : RouterMint) (evB : RouterBurn) (evL : RouterLock) (evU : RouterUnlock)
    (hM : evM.raw.removed = true) (hB : evB.raw.removed = true)
    (hL : evL.raw.removed = true) (hU : evU.raw.removed = true) :
    handleMintLog ew env evM = .ok {} ∧
    handleBurnLog ew env evB = .ok {} ∧
    handleLockLog ew env evL = .ok {} ∧
    handleUnlockLog ew env evU = .ok {} := by
  refine ⟨?_, ?_, ?_, ?_⟩
  · simp [handleMintLog, hM]
  · simp [handleBurnLog, hB]
  · simp [handleLockLog, hL]
  · simp [handleUnlockLog, hU]

/-- Witness for C10 on concrete removed events. -/
theorem removed_log_has_no_side_effects_witness :
    handleMintLog testWatcher testEnv testMintEv = .ok {} ∧
    handleBurnLog testWatcher testEnv { testBurnEv with raw := testRaw } = .ok {} ∧
    handleLockLog testWatcher testEnv { testLockEv with raw := testRaw } = .ok {} ∧
    handleUnlockLog testWatcher testEnv testUnlockEv = .ok {} :=
  removed_log_has_no_side_effects testWatcher testEnv
    testMintEv { testBurnEv with raw := testRaw } { testLockEv with raw := testRaw }
    testUnlockEv rfl rfl rfl rfl

/-- C9 (code bug): at `currentHead = 5`, `confirmations = 10` the
construction-time target block is computed with `uint64` subtraction and
wraps to `2^64 - 5` instead of the specified `max(0, 5 - 10) = 0`; the
`helper.Max(0, ·)` call cannot clamp an unsigned value.  The per-iteration
`toBlock` only escapes the wrap because the wrapped difference is cast back
to `int64`. -/
theorem initialTargetBlock_wraps :
    initialTargetBlock 5 10 = UINT64MOD - 5 ∧
    initialTargetBlock 5 10 ≠ 0 ∧
    iterationToBlock 5 10 = -5 := by
  refine ⟨rfl, ?_, rfl⟩
  intro h
  simp [initialTargetBlock, helperMax, u64sub, UINT64MOD] at h

/-- C8 (code bug): when `ParseLockLog` fails it returns Go's `(nil, err)`,
and the parse-error logging branch formats `lock.Raw.TxHash.String()` on
the nil result, panicking instead of skipping the log; likewise
`handleLockLog` evaluates `chain.Int64()` before checking the chain-id
lookup's error, panicking on a `(nil, err)` outcome.  `handleBurnLog`
checks the same error before any use and drops the event cleanly. -/
theorem lock_error_paths_panic :
    dispatchLog testWatcher envParseFail malformedLockLog = .error .nilDeref ∧
    handleLockLog testWatcher envChainNil testLockEv = .error .nilDeref ∧
    handleBurnLog testWatcher envChainNil testBurnEv = .ok {} :=
  ⟨rfl, rfl, rfl⟩

/-- C4 counterexample: requesting an update of `SignatureMsgStatus` to
`SignatureSubmitted` — a value outside `{SignatureMined, SignatureFailed}`
— is accepted (no error, column overwritten) because the code's allow-list
also contains `SignatureSubmitted`. -/
theorem updateSignatureStatus_accepts_submitted :
    (updateSignatureStatus TStatus.SignatureMined TStatus.SignatureSubmitted).err = none ∧
    (updateSignatureStatus TStatus.SignatureMined TStatus.SignatureSubmitted).stored
      = TStatus.SignatureSubmitted ∧
    TStatus.SignatureSubmitted ∉ [TStatus.SignatureMined, TStatus.SignatureFailed] := by
  decide

/-- C4 (amended): updating the `SignatureMsgStatus` track to any value
outside `{SignatureSubmitted, SignatureMined, SignatureFailed}` returns an
error and leaves the stored value unchanged, while updating to a value
inside that allow-list is accepted. -/
theorem updateSignatureStatus_allowlist (stored status : TStatus) :
    (status ∉ [TStatus.SignatureSubmitted, TStatus.SignatureMined,
        TStatus.SignatureFailed] →
      (updateSignatureStatus stored status).err = some "invalid status" ∧
      (updateSignatureStatus stored status).stored = stored) ∧
    (status ∈ [TStatus.SignatureSubmitted, TStatus.SignatureMined,
        TStatus.SignatureFailed] →
      (updateSignatureStatus stored status).err = none ∧
      (updateSignatureStatus stored status).stored = status) := by
  revert stored status
  decide

/-- Witness for C4: a rejected `Completed` request leaves the column at
`SignatureSubmitted`; a `SignatureMined` request is accepted. -/
theorem updateSignatureStatus_allowlist_witness :
    ((updateSignatureStatus TStatus.SignatureSubmitted TStatus.Completed).err
        = some "invalid status" ∧
      (updateSignatureStatus TStatus.SignatureSubmitted TStatus.Completed).stored
        = TStatus.SignatureSubmitted) ∧
    ((updateSignatureStatus TStatus.SignatureSubmitted TStatus.SignatureMined).err = none ∧
      (updateSignatureStatus TStatus.SignatureSubmitted TStatus.SignatureMined).stored
        = TStatus.SignatureMined) :=
  ⟨(updateSignatureStatus_allowlist TStatus.SignatureSubmitted TStatus.Completed).1
      (by decide),
   (updateSignatureStatus_allowlist TStatus.SignatureSubmitted TStatus.SignatureMined).2
      (by decide)⟩

/-- C5: the starting-block policy of `NewWatcher`: (a) a nonzero explicit
start block overwrites the Progress Store row and becomes the live-cutoff
target block; (b) with no explicit start block and no row, a row is created
at the computed target block; (c) with no explicit start block and an
existing row, the store is untouched and the stored value is what the
watcher resumes from, for every current head (never recomputed). -/
theorem newWatcherInit_policy (startBlock : Int) (currentBlock confirmations : Nat)
    (store : Option Int) :
    (startBlock ≠ 0 →
      newWatcherInit startBlock currentBlock confirmations store
        = { store := some startBlock, targetBlock := uint64OfInt64 startBlock }) ∧
    (startBlock = 0 → store = none →
      newWatcherInit startBlock currentBlock confirmations store
        = { store := some (int64OfUInt64 (initialTargetBlock currentBlock confirmations)),
            targetBlock := initialTargetBlock currentBlock confirmations }) ∧
    (startBlock = 0 → ∀ v, store = some v →
      (newWatcherInit startBlock currentBlock confirmations store).store = some v) := by
  refine ⟨?_, ?_, ?_⟩
  · intro h
    simp [newWatcherInit, h]
  · rintro rfl rfl
    simp [newWatcherInit]
  · rintro rfl v rfl
    simp [newWatcherInit]

/-- Witness for C5 at head `105`, confirmations `5`: an explicit start
block `77` overwrites a stored `42`; with start block `0` and no row, a row
is created at `100`; with start block `0` and a stored `42`, the row stays
`42` (and stays `42` for a different head, here `1000`). -/
theorem newWatcherInit_policy_witness :
    newWatcherInit 77 105 5 (some 42)
      = { store := some 77, targetBlock := 77 } ∧
    newWatcherInit 0 105 5 none
      = { store := some 100, targetBlock := 100 } ∧
    (newWatcherInit 0 105 5 (some 42)).store = some 42 ∧
    (newWatcherInit 0 1000 5 (some 42)).store = some 42 := by
  refine ⟨?_, ?_, ?_, ?_⟩
  · exact ((newWatcherInit_policy 77 105 5 (some 42)).1 (by decide)).trans (by decide)
  · exact ((newWatcherInit_policy 0 105 5 none).2.1 rfl rfl).trans (by decide)
  · exact (newWatcherInit_policy 0 105 5 (some 42)).2.2 rfl 42 rfl
  · exact (newWatcherInit_policy 0 1000 5 (some 42)).2.2 rfl 42 rfl

/-- C7: a Burn event whose resolved native asset's home chain differs from
the event's target chain is dropped — the handler returns an ordinary
(non-panicking) result with no queue push. -/
theorem burn_wrapped_to_wrapped_rejected (ew : Watcher) (env : Env)
    (ev : RouterBurn) (chain : Int) (na : NativeAsset)
    (hc : env.chainID = (some chain, false))
    (hna : ew.mappings.wrappedToNative ev.token chain = some na)
    (hne : ev.targetChain ≠ na.chainId) :
    ∃ effs : Effects, handleBurnLog ew env ev = .ok effs ∧ effs.pushes = [] := by
  simp only [handleBurnLog, hc, hna]
  split
  · exact ⟨{}, rfl, rfl⟩
  · split
    · exact ⟨{}, rfl, rfl⟩
    · simp only [if_neg Bool.false_ne_true, hne, ite_true, if_pos]
      exact ⟨_, rfl, rfl⟩

/-- Witness for C7: a Burn aiming at chain `5` while the native asset lives
on chain `1` is dropped without a push. -/
theorem burn_wrapped_to_wrapped_rejected_witness :
    ∃ effs : Effects,
      handleBurnLog testWatcher testEnv { testBurnEv with targetChain := 5 } = .ok effs ∧
      effs.pushes = [] :=
  burn_wrapped_to_wrapped_rejected testWatcher testEnv
    { testBurnEv with targetChain := 5 } 3
    { chainId := 1, asset := "native-token", minAmount := 50 } rfl rfl (by decide)

/-- Characterization of a Burn-handler queue push: the exact checks the
source performs on the way to `q.Push`, and the topic, amount and timestamp
of the pushed message. -/
theorem handleBurnLog_push_charact (ew : Watcher) (env : Env) (ev : RouterBurn)
    (p : Topic × Transfer) (hp : p ∈ pushesOf (handleBurnLog ew env ev)) :
    ∃ (chain : Int) (na : NativeAsset) (properAmount : Int),
      env.chainID = (some chain, false) ∧
      ev.raw.removed = false ∧
      ev.receiver ≠ [] ∧
      ew.mappings.wrappedToNative ev.token chain = some na ∧
      ev.targetChain = na.chainId ∧
      (if ev.targetChain = HederaNetworkId then env.removeDecimals ev.amount ev.token
       else some ev.amount) = some properAmount ∧
      properAmount ≠ 0 ∧
      ¬ properAmount < na.minAmount ∧
      p.2.amount = properAmount ∧
      p.2.timestamp = (if ew.validator ∧ ev.raw.blockNumber ≥ ew.targetBlock then ""
                       else formatUint (env.blockTimestamp ev.raw.blockNumber)) ∧
      p.1 = (if ew.validator ∧ ev.raw.blockNumber ≥ ew.targetBlock then
               (if ev.targetChain = HederaNetworkId then Topic.HederaFeeTransfer
                else Topic.TopicMessageSubmission)
             else
               (if ev.targetChain = HederaNetworkId then Topic.ReadOnlyHederaTransfer
                else Topic.ReadOnlyTransferSave)) := by
  by_cases hrm : ev.raw.removed = true
  · simp [handleBurnLog, hrm, pushesOf] at hp
  · replace hrm : ev.raw.removed = false := by simpa using hrm
    by_cases hrecv : ev.receiver = []
    · simp [handleBurnLog, hrm, hrecv, pushesOf] at hp
    · rcases henv : env.chainID with ⟨ptr, errb⟩
      cases errb with
      | true => simp [handleBurnLog, hrm, hrecv, henv, pushesOf] at hp
      | false =>
        cases ptr with
        | none => simp [handleBurnLog, hrm, hrecv, henv, pushesOf] at hp
        | some chain =>
          rcases hna : ew.mappings.wrappedToNative ev.token chain with - | na
          · simp [handleBurnLog, hrm, hrecv, henv, hna, pushesOf] at hp
          · by_cases hw2w : ev.targetChain = na.chainId
            case neg =>
              simp [handleBurnLog, hrm, hrecv, henv, hna, hw2w, pushesOf] at hp
            case pos =>
              by_cases htgt : ev.targetChain = HederaNetworkId
              case pos =>
                have hnaH : na.chainId = HederaNetworkId := hw2w.symm.trans htgt
                rcases hrec : env.accountIDFromBytes ev.receiver with - | recipient
                · simp [handleBurnLog, hrm, hrecv, henv, hna, hw2w, htgt, hnaH, hrec,
                    pushesOf] at hp
                · rcases hrd : env.removeDecimals ev.amount ev.token with - | pa
                  · simp [handleBurnLog, hrm, hrecv, henv, hna, hw2w, htgt, hnaH, hrec,
                      hrd, pushesOf] at hp
                  · by_cases hz : pa = 0
                    · simp [handleBurnLog, hrm, hrecv, henv, hna, hw2w, htgt, hnaH,
                        hrec, hrd, hz, pushesOf] at hp
                    · by_cases hmin : pa < na.minAmount
                      · simp [handleBurnLog, hrm, hrecv, henv, hna, hw2w, htgt, hnaH,
                          hrec, hrd, hz, hmin, pushesOf] at hp
                      · by_cases hlive : ew.validator ∧ ev.raw.blockNumber ≥ ew.targetBlock
                        all_goals
                          simp [handleBurnLog, hrm, hrecv, henv, hna, hw2w, htgt, hnaH,
                            hrec, hrd, hz, hmin, hlive, pushesOf] at hp
                        all_goals
                          exact ⟨chain, na, pa, rfl, hrm, hrecv, hna, hw2w,
                            by simp [htgt, hrd], hz, hmin,
                            by simp [hp, hlive], by simp [hp, hlive],
                            by simp [hp, hlive, htgt]⟩
              case neg =>
                have hnaH : ¬ na.chainId = HederaNetworkId := fun h => htgt (hw2w.trans h)
                by_cases hz : ev.amount = 0
                · simp [handleBurnLog, hrm, hrecv, henv, hna, hw2w, htgt, hnaH, hz,
                    pushesOf] at hp
                · by_cases hmin : ev.amount < na.minAmount
                  · simp [handleBurnLog, hrm, hrecv, henv, hna, hw2w, htgt, hnaH, hz,
                      hmin, pushesOf] at hp
                  · by_cases hlive : ew.validator ∧ ev.raw.blockNumber ≥ ew.targetBlock
                    all_goals
                      simp [handleBurnLog, hrm, hrecv, henv, hna, hw2w, htgt, hnaH, hz,
                        hmin, hlive, pushesOf] at hp
                    all_goals
                      exact ⟨chain, na, ev.amount, rfl, hrm, hrecv, hna, hw2w,
                        by simp [htgt], hz, hmin,
                        by simp [hp, hlive], by simp [hp, hlive],
                        by simp [hp, hlive, htgt]⟩

/-- Characterization of a Lock-handler queue push: the exact checks the
source performs on the way to `q.Push`, and the topic, amount and timestamp
of the pushed message.  The minimum-amount check compares the original
event amount, and after the service-fee subtraction only an exact-zero
check remains. -/
theorem handleLockLog_push_charact (ew : Watcher) (env : Env) (ev : RouterLock)
    (p : Topic × Transfer) (hp : p ∈ pushesOf (handleLockLog ew env ev)) :
    ∃ (chain : Int) (properAmount : Int),
      env.chainID = (some chain, false) ∧
      ev.raw.removed = false ∧
      ev.receiver ≠ [] ∧
      ew.mappings.nativeToWrapped ev.token chain ev.targetChain ≠ "" ∧
      ¬ ev.amount < (ew.mappings.fungibleNativeAsset chain ev.token).minAmount ∧
      (if ev.targetChain = HederaNetworkId then
        env.removeDecimals (ev.amount - ev.serviceFee) ev.token
       else some (ev.amount - ev.serviceFee)) = some properAmount ∧
      properAmount ≠ 0 ∧
      p.2.amount = properAmount ∧
      p.2.timestamp = (if ew.validator ∧ ev.raw.blockNumber ≥ ew.targetBlock then ""
                       else formatUint (env.blockTimestamp ev.raw.blockNumber)) ∧
      p.1 = (if ew.validator ∧ ev.raw.blockNumber ≥ ew.targetBlock then
               (if ev.targetChain = HederaNetworkId then Topic.HederaMintHtsTransfer
                else Topic.TopicMessageSubmission)
             else
               (if ev.targetChain = HederaNetworkId then Topic.ReadOnlyHederaMintHtsTransfer
                else Topic.ReadOnlyTransferSave)) := by
  by_cases hrm : ev.raw.removed = true
  · simp [handleLockLog, hrm, pushesOf] at hp
  · replace hrm : ev.raw.removed = false := by simpa using hrm
    by_cases hrecv : ev.receiver = []
    · simp [handleLockLog, hrm, hrecv, pushesOf] at hp
    · rcases henv : env.chainID with ⟨ptr, errb⟩
      cases ptr with
      | none => simp [handleLockLog, hrm, hrecv, henv, pushesOf] at hp
      | some chain =>
        cases errb with
        | true => simp [handleLockLog, hrm, hrecv, henv, pushesOf] at hp
        | false =>
          by_cases htgt : ev.targetChain = HederaNetworkId
          case pos =>
            rcases hrec : env.accountIDFromBytes ev.receiver with - | recipient
            · simp [handleLockLog, hrm, hrecv, henv, htgt, hrec, pushesOf] at hp
            · by_cases hwrap : ew.mappings.nativeToWrapped ev.token chain ev.targetChain = ""
              · have hwrapH := htgt ▸ hwrap
                simp [handleLockLog, hrm, hrecv, henv, htgt, hrec, hwrapH,
                  pushesOf] at hp
              · have hwrapH := htgt ▸ hwrap
                by_cases hmin :
                    ev.amount < (ew.mappings.fungibleNativeAsset chain ev.token).minAmount
                · simp [handleLockLog, hrm, hrecv, henv, htgt, hrec, hwrapH, hmin,
                    pushesOf] at hp
                · rcases hrd : env.removeDecimals (ev.amount - ev.serviceFee) ev.token
                      with - | pa
                  · simp [handleLockLog, hrm, hrecv, henv, htgt, hrec, hwrapH, hmin, hrd,
                      pushesOf] at hp
                  · by_cases hz : pa = 0
                    · simp [handleLockLog, hrm, hrecv, henv, htgt, hrec, hwrapH, hmin,
                        hrd, hz, pushesOf] at hp
                    · by_cases hlive : ew.validator ∧ ev.raw.blockNumber ≥ ew.targetBlock
                      all_goals
                        simp [handleLockLog, hrm, hrecv, henv, htgt, hrec, hwrapH, hmin,
                          hrd, hz, hlive, pushesOf] at hp
                      all_goals
                        exact ⟨chain, pa, rfl, hrm, hrecv, hwrap, hmin,
                          by simp [htgt, hrd], hz,
                          by simp [hp, hlive], by simp [hp, hlive],
                          by simp [hp, hlive, htgt]⟩
          case neg =>
            by_cases hwrap : ew.mappings.nativeToWrapped ev.token chain ev.targetChain = ""
            · simp [handleLockLog, hrm, hrecv, henv, htgt, hwrap, pushesOf] at hp
            · by_cases hmin :
                  ev.amount < (ew.mappings.fungibleNativeAsset chain ev.token).minAmount
              · simp [handleLockLog, hrm, hrecv, henv, htgt, hwrap, hmin, pushesOf] at hp
              · by_cases hz : ev.amount - ev.serviceFee = 0
                · simp [handleLockLog, hrm, hrecv, henv, htgt, hwrap, hmin, hz,
                    pushesOf] at hp
                · by_cases hlive : ew.validator ∧ ev.raw.blockNumber ≥ ew.targetBlock
                  all_goals
                    simp [handleLockLog, hrm, hrecv, henv, htgt, hwrap, hmin, hz, hlive,
                      pushesOf] at hp
                  all_goals
                    exact ⟨chain, ev.amount - ev.serviceFee, rfl, hrm, hrecv, hwrap,
                      hmin, by simp [htgt], hz,
                      by simp [hp, hlive], by simp [hp, hlive],
                      by simp [hp, hlive, htgt]⟩

/-- C3: every Transfer a Burn or Lock handler pushes is routed by the live
cutoff: in validator mode at a block at or after the watcher's startup
target block, it goes with an unset timestamp to the Hedera settlement
topic (`HederaFeeTransfer` for Burn, `HederaMintHtsTransfer` for Lock)
when the target chain is Hedera and to `TopicMessageSubmission` otherwise;
in every other case it carries the non-empty timestamp fetched from the
source block and goes to a read-only recording topic, never a signing
topic. -/
theorem routing_topics (ew : Watcher) (env : Env) :
    (∀ (ev : RouterBurn), ∀ p ∈ pushesOf (handleBurnLog ew env ev),
      (ew.validator ∧ ev.raw.blockNumber ≥ ew.targetBlock →
        p.2.timestamp = "" ∧
        p.1 = if ev.targetChain = HederaNetworkId then Topic.HederaFeeTransfer
              else Topic.TopicMessageSubmission) ∧
      (¬(ew.validator ∧ ev.raw.blockNumber ≥ ew.targetBlock) →
        p.2.timestamp = formatUint (env.blockTimestamp ev.raw.blockNumber) ∧
        p.2.timestamp ≠ "" ∧
        (p.1 = Topic.ReadOnlyHederaTransfer ∨ p.1 = Topic.ReadOnlyTransferSave))) ∧
    (∀ (ev : RouterLock), ∀ p ∈ pushesOf (handleLockLog ew env ev),
      (ew.validator ∧ ev.raw.blockNumber ≥ ew.targetBlock →
        p.2.timestamp = "" ∧
        p.1 = if ev.targetChain = HederaNetworkId then Topic.HederaMintHtsTransfer
              else Topic.TopicMessageSubmission) ∧
      (¬(ew.validator ∧ ev.raw.blockNumber ≥ ew.targetBlock) →
        p.2.timestamp = formatUint (env.blockTimestamp ev.raw.blockNumber) ∧
        p.2.timestamp ≠ "" ∧
        (p.1 = Topic.ReadOnlyHederaMintHtsTransfer ∨ p.1 = Topic.ReadOnlyTransferSave))) := by
  constructor
  · intro ev p hp
    obtain ⟨chain, na, properAmount, -, -, -, -, -, -, -, -, -, hp2, hp1⟩ :=
      handleBurnLog_push_charact ew env ev p hp
    rw [hp1, hp2]
    by_cases hlive : ew.validator ∧ ev.raw.blockNumber ≥ ew.targetBlock
    · simp [hlive]
    · simp only [if_neg hlive]
      refine ⟨fun h => absurd h hlive, fun _ => ⟨by trivial, formatUint_ne_empty _, ?_⟩⟩
      by_cases htgt : ev.targetChain = HederaNetworkId
      · simp [htgt]
      · simp [htgt]
  · intro ev p hp
    obtain ⟨chain, properAmount, -, -, -, -, -, -, -, -, hp2, hp1⟩ :=
      handleLockLog_push_charact ew env ev p hp
    rw [hp1, hp2]
    by_cases hlive : ew.validator ∧ ev.raw.blockNumber ≥ ew.targetBlock
    · simp [hlive]
    · simp only [if_neg hlive]
      refine ⟨fun h => absurd h hlive, fun _ => ⟨by trivial, formatUint_ne_empty _, ?_⟩⟩
      by_cases htgt : ev.targetChain = HederaNetworkId
      · simp [htgt]
      · simp [htgt]

/-- Witness for C3: the live Burn fixture is pushed to
`TopicMessageSubmission` with no timestamp set. -/
theorem routing_topics_witness :
    testBurnPush ∈ pushesOf (handleBurnLog testWatcher testEnv testBurnEv) ∧
    testBurnPush.2.timestamp = "" ∧
    testBurnPush.1 = Topic.TopicMessageSubmission := by
  have hmem : testBurnPush ∈ pushesOf (handleBurnLog testWatcher testEnv testBurnEv) := by
    decide
  have h := ((routing_topics testWatcher testEnv).1 testBurnEv testBurnPush hmem).1
    (by decide)
  exact ⟨hmem, h.1, by rw [h.2]; decide⟩

/-- C2 counterexample: a Lock event with `amount = 1000`,
`serviceFee = 100`, minimum `1000` and same-precision chains is NOT
dropped: since the minimum check compares the original amount (and
`1000 < 1000` is false), a Transfer of amount `900` — below the configured
minimum — is pushed. -/
theorem handleLockLog_pushes_below_minimum :
    (pushesOf (handleLockLog min1000Watcher testEnv testLockEv)).map
        (fun p => (p.1, p.2.amount))
      = [(Topic.TopicMessageSubmission, 900)] := by
  decide

/-- C2 (amended): for a Lock event (valid receiver, resolved chain id,
same-precision target, resolvable wrapped asset) the handler rejects when
the ORIGINAL event amount is strictly below the asset's configured minimum
and when the fee-adjusted amount is exactly zero; otherwise it pushes a
Transfer whose amount is `amount - serviceFee`.  In particular, with
`amount = 1000`, `serviceFee = 100`: minimum `50` yields a pushed amount of
`900`; minimum `1000` does not drop the event (1000 is not strictly below
1000) and the same amount `900` is pushed. -/
theorem handleLockLog_amount_checks (ew : Watcher) (env : Env) (ev : RouterLock)
    (chain : Int)
    (hrm : ev.raw.removed = false) (hrecv : ev.receiver ≠ [])
    (hc : env.chainID = (some chain, false))
    (htgt : ev.targetChain ≠ HederaNetworkId)
    (hwrap : ew.mappings.nativeToWrapped ev.token chain ev.targetChain ≠ "") :
    (ev.amount < (ew.mappings.fungibleNativeAsset chain ev.token).minAmount →
      pushesOf (handleLockLog ew env ev) = []) ∧
    (ev.amount - ev.serviceFee = 0 →
      pushesOf (handleLockLog ew env ev) = []) ∧
    ((ew.mappings.fungibleNativeAsset chain ev.token).minAmount ≤ ev.amount →
      ev.amount - ev.serviceFee ≠ 0 →
      (pushesOf (handleLockLog ew env ev)).map (fun p => p.2.amount)
        = [ev.amount - ev.serviceFee]) := by
  refine ⟨?_, ?_, ?_⟩
  · intro hmin
    simp [handleLockLog, hrm, hrecv, hc, htgt, hwrap, hmin, pushesOf]
  · intro hz
    by_cases hmin : ev.amount < (ew.mappings.fungibleNativeAsset chain ev.token).minAmount
    · simp [handleLockLog, hrm, hrecv, hc, htgt, hwrap, hmin, hz, pushesOf]
    · simp [handleLockLog, hrm, hrecv, hc, htgt, hwrap, hmin, hz, pushesOf]
  · intro hmin hz
    have hmin2 : ¬ ev.amount < (ew.mappings.fungibleNativeAsset chain ev.token).minAmount :=
      not_lt.mpr hmin
    by_cases hlive : ew.validator ∧ ev.raw.blockNumber ≥ ew.targetBlock <;>
      simp [handleLockLog, hrm, hrecv, hc, htgt, hwrap, hmin2, hz, hlive, pushesOf]

/-- Witness for C2 (amended) at the claim's own concrete numbers:
`amount = 1000`, `serviceFee = 100`, minimum `50`, same precision — the
pushed Transfer amount is `900`. -/
theorem handleLockLog_amount_checks_witness :
    (pushesOf (handleLockLog testWatcher testEnv testLockEv)).map (fun p => p.2.amount)
      = [900] := by
  have h := (handleLockLog_amount_checks testWatcher testEnv testLockEv 3
    rfl (by decide) rfl (by decide) (by decide)).2.2 (by decide) (by decide)
  simpa using h

/-- C6 counterexample: a Lock event with `amount = 1000` (at or above the
minimum `50`) and `serviceFee = 2000` pushes a Transfer with the NEGATIVE
amount `-1000`: the handler only rejects a fee-adjusted amount that is
exactly zero, so pushed amounts are neither guaranteed strictly positive
nor guaranteed at or above the configured minimum. -/
theorem handleLockLog_pushes_negative_amount :
    (pushesOf (handleLockLog testWatcher testEnv testLockNegEv)).map
        (fun p => p.2.amount)
      = [-1000] := by
  decide

/-- C6 (amended): every Transfer the Burn handler pushes has a nonzero
amount at or above the asset's configured minimum (hence strictly positive
whenever the configured minimum is nonnegative); every Transfer the Lock
handler pushes has a nonzero amount and an ORIGINAL event amount at or
above the minimum, but its pushed (fee-subtracted) amount itself can be
below the minimum or negative. -/
theorem pushed_amount_invariants (ew : Watcher) (env : Env) :
    (∀ (ev : RouterBurn), ∀ p ∈ pushesOf (handleBurnLog ew env ev),
      ∃ (chain : Int) (na : NativeAsset),
        env.chainID = (some chain, false) ∧
        ew.mappings.wrappedToNative ev.token chain = some na ∧
        p.2.amount ≠ 0 ∧
        na.minAmount ≤ p.2.amount ∧
        (0 ≤ na.minAmount → 0 < p.2.amount)) ∧
    (∀ (ev : RouterLock), ∀ p ∈ pushesOf (handleLockLog ew env ev),
      ∃ chain : Int,
        env.chainID = (some chain, false) ∧
        p.2.amount ≠ 0 ∧
        (ew.mappings.fungibleNativeAsset chain ev.token).minAmount ≤ ev.amount) := by
  constructor
  · intro ev p hp
    obtain ⟨chain, na, pa, henv, -, -, hna, -, -, hz, hmin, hamount, -, -⟩ :=
      handleBurnLog_push_charact ew env ev p hp
    refine ⟨chain, na, henv, hna, ?_, ?_, ?_⟩
    · rw [hamount]; exact hz
    · rw [hamount]; exact not_lt.mp hmin
    · rw [hamount]; intro h0
      rcases (not_lt.mp hmin).lt_or_eq with hlt | heq
      · exact lt_of_le_of_lt h0 hlt
      · omega
  · intro ev p hp
    obtain ⟨chain, pa, henv, -, -, -, hmin, -, hz, hamount, -, -⟩ :=
      handleLockLog_push_charact ew env ev p hp
    exact ⟨chain, henv, by rw [hamount]; exact hz, not_lt.mp hmin⟩

/-- Witness for C6 (amended): the Burn fixture pushes amount `500`, nonzero
and at or above the minimum `50`, hence positive. -/
theorem pushed_amount_invariants_witness :
    testBurnPush ∈ pushesOf (handleBurnLog testWatcher testEnv testBurnEv) ∧
    testBurnPush.2.amount = 500 ∧
    (∃ (chain : Int) (na : NativeAsset),
      testEnv.chainID = (some chain, false) ∧
      testWatcher.mappings.wrappedToNative testBurnEv.token chain = some na ∧
      testBurnPush.2.amount ≠ 0 ∧
      na.minAmount ≤ testBurnPush.2.amount ∧
      (0 ≤ na.minAmount → 0 < testBurnPush.2.amount)) := by
  have hmem : testBurnPush ∈ pushesOf (handleBurnLog testWatcher testEnv testBurnEv) := by
    decide
  exact ⟨hmem, rfl,
    (pushed_amount_invariants testWatcher testEnv).1 testBurnEv testBurnPush hmem⟩

end Hashport
